import Mathlib

/-!
Shallow embedding of the hit-dice-healing module.

The JavaScript sources embedded here are `scripts/hit-dice-manager.js`
(hit-dice pool bookkeeping, healing rolls, spell-slot restoration) and
`scripts/rest-manager.js` (Long Rest and Full Rest orchestration).

Foundry actors are modelled as an explicit `Actor` record holding exactly the
fields the module reads or writes; asynchronous persistence calls become pure
state updates, and the calls the module makes to the store are additionally
logged in an `Event` trace so ordering claims can be stated.  The external
roll engine result (`roll.total`) becomes an explicit `rollTotal` argument.
Machine numbers in the JS are ordinary doubles used as integers; we model them
as `Int`.
-/

/-- A current/max resource pool (focus points, infused reagents). -/
structure Pool where
  value : Int
  max : Int
deriving Repr, DecidableEq

/-- One spell-slot level of a spellcasting entry: `slots[slotN]` with
`value` (current) and `max`. -/
structure SlotData where
  value : Int
  max : Int
deriving Repr, DecidableEq

/-- `item.system.frequency`: per-period charge tracking. `per` is the reset
period string; the module only compares it against the literal day period. -/
inductive Per where
  | day
  | other
deriving Repr, DecidableEq

structure Frequency where
  value : Int
  max : Int
  per : Per
deriving Repr, DecidableEq

/-- `item.type` values the module distinguishes. -/
inductive ItemKind where
  | consumable
  | spellcastingEntry
  | other
deriving Repr, DecidableEq

/-- `item.system.consumableType.value` values the module distinguishes. -/
inductive ConsumableKind where
  | wand
  | other
deriving Repr, DecidableEq

/-- An embedded item document, restricted to the fields the module touches.
`slots` is the association list level ↦ slot data of a spellcasting entry
(empty for items that are not spellcasting entries). -/
structure Item where
  id : Nat
  kind : ItemKind
  consumableType : Option ConsumableKind
  frequency : Option Frequency
  temporary : Bool
  slots : List (Nat × SlotData)
deriving Repr, DecidableEq

/-- The character actor, restricted to the fields the module reads or writes.
`hdFlag` is the persisted flag `flags[hit-dice-healing].current` (`none` when
never set); `level` and `conMod` are `Option` to model the `?? 1` and `?? 0`
fallbacks in the source. -/
structure Actor where
  level : Option Int
  hdFlag : Option Int
  hp : Int
  hpMax : Int
  conMod : Option Int
  className : Option String
  focus : Option Pool
  infusedReagents : Option Pool
  fatigued : Bool
  doomed : Option Int
  drained : Option Int
  wounded : Bool
  dailyCraftingComplete : Bool
  items : List Item
deriving Repr, DecidableEq

/-- Status conditions handled by the Long Rest condition step. -/
inductive Cond where
  | fatigued
  | doomed
  | drained
  | wounded
deriving Repr, DecidableEq

/-- Identifiers of the localized status messages a rest pushes into its
consolidated summary. -/
inductive Msg where
  | hitDiceRestored (count : Int)
  | hitDiceAlreadyFull
  | focusRestored
  | focusAlreadyFull
  | conditionRemoved (c : Cond)
  | conditionReduced (c : Cond)
  | woundsNotHealed
  | infusedReagentsRestored
  | temporaryItemsExpired
  | dailyResourcesReset
  | hpUnchanged
  | spellSlotsUnchanged
deriving Repr, DecidableEq

/-- Persistence and side-effect calls the module issues, in program order.
`setFlagHD` is `actor.setFlag` on the hit-dice flag, `itemUpdate` is
`item.update`, `batchedActorUpdate` is the single `actor.update(updates)`
carrying the accumulated field map, `chatMessage` is the summary post. -/
inductive Event where
  | setFlagHD
  | conditionUpdate (c : Cond)
  | itemUpdate (id : Nat)
  | setFlagDailyCrafting
  | deleteItems (ids : List Nat)
  | batchedActorUpdate
  | hpUpdate
  | chatMessage
deriving Repr, DecidableEq

/-! ## HitDiceManager (scripts/hit-dice-manager.js) -/

/-- `getMaxHitDice`: `(actor.system?.details?.level?.value ?? 1) + 1`. -/
def getMaxHitDice (a : Actor) : Int :=
  a.level.getD 1 + 1

/-- `getCurrentHitDice`: the stored flag, or the max when the flag was never
set.  The stored value is returned unclamped. -/
def getCurrentHitDice (a : Actor) : Int :=
  match a.hdFlag with
  | none => getMaxHitDice a
  | some v => v

/-- `setCurrentHitDice`: clamp into `[0, getMaxHitDice]` and persist. -/
def setCurrentHitDice (a : Actor) (value : Int) : Actor :=
  let m := getMaxHitDice a
  let clamped := max 0 (min value m)
  { a with hdFlag := some clamped }

/-- The `CLASS_DIE_TYPES` table keyed by lowercased class name. -/
def classDieTypes (s : String) : Option Int :=
  if s == "psychic" || s == "sorcerer" || s == "witch" || s == "wizard" then
    some 6
  else if s == "alchemist" || s == "animist" || s == "bard" || s == "cleric"
      || s == "commander" || s == "druid" || s == "gunslinger"
      || s == "investigator" || s == "inventor" || s == "kineticist"
      || s == "oracle" || s == "rogue" || s == "thaumaturge" then
    some 8
  else if s == "champion" || s == "exemplar" || s == "fighter"
      || s == "guardian" || s == "magus" || s == "monk" || s == "ranger"
      || s == "summoner" || s == "swashbuckler" then
    some 10
  else if s == "barbarian" then
    some 12
  else
    none

/-- `getDieType`: table lookup by lowercased class name, default d8 when the
name is missing, empty (falsy) or unknown. -/
def getDieType (a : Actor) : Int :=
  match a.className with
  | none => 8
  | some c =>
    let s := c.toLower
    if s.isEmpty then 8
    else
      match classDieTypes s with
      | some d => d
      | none => 8

/-- `getConModifier`: `actor.system?.abilities?.con?.mod ?? 0`. -/
def getConModifier (a : Actor) : Int :=
  a.conMod.getD 0

/-- Result of `calculateRange`. -/
structure Range where
  min : Int
  max : Int
deriving Repr, DecidableEq

/-- `calculateRange`: display range of a healing roll, flooring at one HP per
die spent. -/
def calculateRange (diceCount dieType conMod : Int) : Range :=
  let totalConMod := conMod * diceCount
  let rawMin := diceCount + totalConMod
  let rmin := max diceCount rawMin
  let rmax := max diceCount (dieType * diceCount + totalConMod)
  ⟨rmin, rmax⟩

/-- `buildFormula`: the roll formula string; zero modifier omits the suffix,
a positive one is prefixed with a plus, a negative one renders its own sign. -/
def buildFormula (diceCount dieType conMod : Int) : String :=
  let totalMod := conMod * diceCount
  let base := toString diceCount ++ "d" ++ toString dieType
  if totalMod == 0 then base
  else if totalMod > 0 then base ++ "+" ++ toString totalMod
  else base ++ toString totalMod

/-- Validation failures of `rollAndHeal`, by the warning they emit. -/
inductive RollError where
  | insufficientDice
  | belowMinimumDiceCount
deriving Repr, DecidableEq

/-- Outcome of `rollAndHeal`.  A `failure` is returned before the roll engine
is invoked and carries the untouched actor; a `success` carries the updated
actor and the values reported in the chat message. -/
inductive RollResult where
  | failure (a : Actor) (e : RollError)
  | success (a : Actor) (formula : String) (rollTotal healing actualHealing : Int)
      (wasLimited : Bool)
deriving Repr, DecidableEq

/-- Post-state of a `rollAndHeal` outcome. -/
def RollResult.actorOf : RollResult → Actor
  | .failure a _ => a
  | .success a _ _ _ _ _ => a

/-- Whether a `rollAndHeal` outcome is a success. -/
def RollResult.isSuccess : RollResult → Bool
  | .failure _ _ => false
  | .success _ _ _ _ _ _ => true

/-- The `actualHealing` a successful `rollAndHeal` reports. -/
def RollResult.actualHealingOf : RollResult → Option Int
  | .failure _ _ => none
  | .success _ _ _ _ ah _ => some ah

/-- `rollAndHeal`: validate, roll (the engine result is the `rollTotal`
argument), floor healing at one HP per die, cap at max HP, persist HP and the
reduced pool. -/
def rollAndHeal (a : Actor) (diceCount rollTotal : Int) : RollResult :=
  let current := getCurrentHitDice a
  if diceCount > current then
    .failure a .insufficientDice
  else if diceCount < 1 then
    .failure a .belowMinimumDiceCount
  else
    let dieType := getDieType a
    let conMod := getConModifier a
    let formula := buildFormula diceCount dieType conMod
    let healing := max rollTotal diceCount
    let currentHP := a.hp
    let maxHP := a.hpMax
    let newHP := min (currentHP + healing) maxHP
    let actualHealing := newHP - currentHP
    let a1 := { a with hp := newHP }
    let a2 := setCurrentHitDice a1 (current - diceCount)
    .success a2 formula rollTotal healing actualHealing (healing > actualHealing)

/-- Return value of `replenishHitDice`. -/
structure ReplenishResult where
  replenished : Int
  total : Int
deriving Repr, DecidableEq

/-- `replenishHitDice`: set the pool to max when it is below max, otherwise
leave the actor untouched; report the delta.  The write it performs is traced
as a `setFlagHD` event. -/
def replenishHitDice (a : Actor) : Actor × ReplenishResult × List Event :=
  let m := getMaxHitDice a
  let current := getCurrentHitDice a
  if current < m then
    (setCurrentHitDice a m, ⟨m - current, m⟩, [Event.setFlagHD])
  else
    (a, ⟨0, m⟩, [])

/-! ## Spell-slot recovery (scripts/hit-dice-manager.js, spellslot section) -/

/-- Failures of `restoreSpellslot`, by the notification they emit.  The
SlotAlreadyFull warning also covers a slot key that does not exist on the
entry, matching the combined guard in the source. -/
inductive SlotError where
  | insufficientDice
  | entryNotFound
  | slotFull
deriving Repr, DecidableEq

/-- Outcome of `restoreSpellslot`: the post-state actor together with the
boolean the source returns, and the failure kind when it failed. -/
inductive SlotResult where
  | failure (a : Actor) (e : SlotError)
  | success (a : Actor)
deriving Repr, DecidableEq

/-- Post-state of a `restoreSpellslot` outcome. -/
def SlotResult.actorOf : SlotResult → Actor
  | .failure a _ => a
  | .success a => a

/-- Whether a `restoreSpellslot` outcome is a success. -/
def SlotResult.isSuccess : SlotResult → Bool
  | .failure _ _ => false
  | .success _ => true

/-- `entry.system.slots[slotN]` lookup on an item. -/
def slotLookup (i : Item) (level : Nat) : Option SlotData :=
  (i.slots.find? (fun p => p.1 == level)).map Prod.snd

/-- `entry.update` setting `system.slots.slotN.value` to `v`. -/
def setSlotValue (i : Item) (level : Nat) (v : Int) : Item :=
  { i with
    slots := i.slots.map (fun p =>
      if p.1 == level then (p.1, { p.2 with value := v }) else p) }

/-- Apply `setSlotValue` to the items of the actor that carry `entryId`. -/
def updateEntrySlot (a : Actor) (entryId : Nat) (level : Nat) (v : Int) : Actor :=
  { a with
    items := a.items.map (fun i =>
      if i.id == entryId then setSlotValue i level v else i) }

/-- The current slot value stored at `(entryId, level)`, if any. -/
def slotValueAt (a : Actor) (entryId : Nat) (level : Nat) : Option Int :=
  (a.items.find? (fun i => i.id == entryId)).bind
    (fun e => (slotLookup e level).map SlotData.value)

/-- `restoreSpellslot`: spend `slotLevel` hit dice to restore one slot of that
level on the given spellcasting entry.  Checks, in source order: enough hit
dice, entry exists, slot exists and is below max; then increments the slot and
deducts the cost through `setCurrentHitDice`. -/
def restoreSpellslot (a : Actor) (entryId : Nat) (slotLevel : Nat) : SlotResult :=
  let hitDiceCost : Int := (slotLevel : Int)
  let current := getCurrentHitDice a
  if hitDiceCost > current then
    .failure a .insufficientDice
  else
    match a.items.find? (fun i => i.id == entryId) with
    | none => .failure a .entryNotFound
    | some entry =>
      match slotLookup entry slotLevel with
      | none => .failure a .slotFull
      | some slotData =>
        if slotData.value ≥ slotData.max then
          .failure a .slotFull
        else
          let a1 := updateEntrySlot a entryId slotLevel (slotData.value + 1)
          let a2 := setCurrentHitDice a1 (current - hitDiceCost)
          .success a2

/-! ## RestManager (scripts/rest-manager.js) -/

/-- The field map accumulated into `updates` during a Long Rest and written by
the single batched `actor.update(updates)` call. -/
structure Updates where
  focusValue : Option Int
  reagentsValue : Option Int
deriving Repr, DecidableEq

/-- The empty `updates` map. -/
def Updates.empty : Updates := ⟨none, none⟩

/-- `Object.keys(updates).length > 0`. -/
def Updates.nonempty (u : Updates) : Bool :=
  u.focusValue.isSome || u.reagentsValue.isSome

/-- Writing the accumulated field map with `actor.update(updates)`. -/
def applyUpdates (a : Actor) (u : Updates) : Actor :=
  let a1 :=
    match u.focusValue with
    | some v => { a with focus := a.focus.map (fun f => { f with value := v }) }
    | none => a
  match u.reagentsValue with
  | some v =>
    { a1 with infusedReagents := a1.infusedReagents.map (fun r => { r with value := v }) }
  | none => a1

/-- First block of `_handleRestConditions`: remove fatigued if present. -/
def stepFatigued (a : Actor) : Actor × List Msg × List Event :=
  if a.fatigued then
    ({ a with fatigued := false },
     [Msg.conditionRemoved Cond.fatigued], [Event.conditionUpdate Cond.fatigued])
  else (a, [], [])

/-- Second block of `_handleRestConditions`: decrease doomed by one,
force-removing it when its value is at most one. -/
def stepDoomed (a : Actor) : Actor × List Msg × List Event :=
  match a.doomed with
  | some v =>
    if v ≤ 1 then
      ({ a with doomed := none },
       [Msg.conditionRemoved Cond.doomed], [Event.conditionUpdate Cond.doomed])
    else
      ({ a with doomed := some (v - 1) },
       [Msg.conditionReduced Cond.doomed], [Event.conditionUpdate Cond.doomed])
  | none => (a, [], [])

/-- Third block of `_handleRestConditions`: same rule for drained. -/
def stepDrained (a : Actor) : Actor × List Msg × List Event :=
  match a.drained with
  | some v =>
    if v ≤ 1 then
      ({ a with drained := none },
       [Msg.conditionRemoved Cond.drained], [Event.conditionUpdate Cond.drained])
    else
      ({ a with drained := some (v - 1) },
       [Msg.conditionReduced Cond.drained], [Event.conditionUpdate Cond.drained])
  | none => (a, [], [])

/-- Fourth block of `_handleRestConditions`: remove wounded only at full HP,
else report the wounds as not yet healed. -/
def stepWounded (a : Actor) : Actor × List Msg × List Event :=
  if a.wounded then
    if a.hp ≥ a.hpMax then
      ({ a with wounded := false },
       [Msg.conditionRemoved Cond.wounded], [Event.conditionUpdate Cond.wounded])
    else (a, [Msg.woundsNotHealed], [])
  else (a, [], [])

/-- `_handleRestConditions`: the four condition blocks run in sequence. -/
def handleRestConditions (a : Actor) : Actor × List Msg × List Event :=
  let s1 := stepFatigued a
  let s2 := stepDoomed s1.1
  let s3 := stepDrained s2.1
  let s4 := stepWounded s3.1
  (s4.1, s1.2.1 ++ s2.2.1 ++ s3.2.1 ++ s4.2.1, s1.2.2 ++ s2.2.2 ++ s3.2.2 ++ s4.2.2)

/-- The wand-recharge guard: `i.type === consumable`,
`i.system?.consumableType?.value === wand`, and a frequency exists. -/
def isWandWithFrequency (i : Item) : Bool :=
  i.kind == ItemKind.consumable
    && i.consumableType == some ConsumableKind.wand
    && i.frequency.isSome

/-- `wand.update` resetting `system.frequency.value` to its max. -/
def rechargeItemFrequency (i : Item) : Item :=
  match i.frequency with
  | some f => { i with frequency := some { f with value := f.max } }
  | none => i

/-- The wand loop of `_refreshDailyResources`: recharge every wand that tracks
a frequency, one `item.update` call each. -/
def wandPass : List Item → List Item × List Event
  | [] => ([], [])
  | i :: rest =>
    let s := wandPass rest
    if isWandWithFrequency i then
      (rechargeItemFrequency i :: s.1, Event.itemUpdate i.id :: s.2)
    else (i :: s.1, s.2)

/-- The daily-frequency guard of the generic item loop:
`item.system?.frequency?.per === day` with `value < max`. -/
def isDailyFrequencyBelowMax (i : Item) : Bool :=
  match i.frequency with
  | some f => f.per == Per.day && f.value < f.max
  | none => false

/-- The generic item loop of `_refreshDailyResources`: refresh every per-day
frequency that is below max, one `item.update` call each. -/
def freqPass : List Item → List Item × List Event
  | [] => ([], [])
  | i :: rest =>
    let s := freqPass rest
    if isDailyFrequencyBelowMax i then
      (rechargeItemFrequency i :: s.1, Event.itemUpdate i.id :: s.2)
    else (i :: s.1, s.2)

/-- `_refreshDailyResources`: recharge wands, accumulate the infused-reagent
restore into `updates`, clear the daily-crafting flag, refresh per-day
frequencies, delete temporary items, report, and finally note that HP and
spell slots were not restored. -/
def refreshDailyResources (a : Actor) (u : Updates) :
    Actor × Updates × List Msg × List Event :=
  let w := wandPass a.items
  let a1 := { a with items := w.1 }
  let su : Updates × List Msg :=
    match a1.infusedReagents with
    | some r =>
      if r.value < r.max then
        ({ u with reagentsValue := some r.max }, [Msg.infusedReagentsRestored])
      else (u, [])
    | none => (u, [])
  let sc : Actor × List Event :=
    if a1.dailyCraftingComplete then
      ({ a1 with dailyCraftingComplete := false }, [Event.setFlagDailyCrafting])
    else (a1, [])
  let a2 := sc.1
  let f := freqPass a2.items
  let a3 := { a2 with items := f.1 }
  let tempIds := (a3.items.filter (fun i => i.temporary)).map Item.id
  let sd : Actor × List Msg × List Event :=
    if tempIds.isEmpty then (a3, [], [])
    else
      ({ a3 with items := a3.items.filter (fun i => !i.temporary) },
       [Msg.temporaryItemsExpired], [Event.deleteItems tempIds])
  let mDaily := if (w.2 ++ f.2).isEmpty then [] else [Msg.dailyResourcesReset]
  (sd.1, su.1,
   su.2 ++ sd.2.1 ++ mDaily ++ [Msg.hpUnchanged, Msg.spellSlotsUnchanged],
   w.2 ++ sc.2 ++ f.2 ++ sd.2.2)

/-- Result of `performLongRest`: the post-state actor, the consolidated
summary messages, and the trace of persistence and notification calls. -/
structure LongRestResult where
  actor : Actor
  messages : List Msg
  events : List Event
deriving Repr, DecidableEq

/-- Step 2 of `performLongRest`: when a focus pool exists with positive max,
accumulate its restoration into `updates` or report it already full. -/
def longRestFocusStep (a : Actor) : Updates × List Msg :=
  match a.focus with
  | some f =>
    if f.max > 0 then
      if f.value < f.max then
        ({ focusValue := some f.max, reagentsValue := none }, [Msg.focusRestored])
      else (Updates.empty, [Msg.focusAlreadyFull])
    else (Updates.empty, [])
  | none => (Updates.empty, [])

/-- `performLongRest`: replenish hit dice, accumulate the focus restore into
`updates`, decay conditions, refresh daily resources, write the accumulated
`updates` in one batched `actor.update` call, then send the summary chat
message. -/
def performLongRest (a : Actor) : LongRestResult :=
  let r1 := replenishHitDice a
  let a1 := r1.1
  let m1 :=
    if r1.2.1.replenished > 0 then [Msg.hitDiceRestored r1.2.1.replenished]
    else [Msg.hitDiceAlreadyFull]
  let sf := longRestFocusStep a1
  let r3 := handleRestConditions a1
  let a3 := r3.1
  let r4 := refreshDailyResources a3 sf.1
  let a4 := r4.1
  let u4 := r4.2.1
  let a5 := if u4.nonempty then applyUpdates a4 u4 else a4
  let e5 : List Event := if u4.nonempty then [Event.batchedActorUpdate] else []
  ⟨a5,
   m1 ++ sf.2 ++ r3.2.1 ++ r4.2.2.1,
   r1.2.2 ++ r3.2.2 ++ r4.2.2.2 ++ e5 ++ [Event.chatMessage]⟩

/-- `performFullRest` on the branch where the external
`game.pf2e.actions.restForTheNight` capability is absent: the external call is
skipped and only the hit-dice pool is replenished; a notice is emitted only
when dice were actually replenished. -/
def performFullRestNoHook (a : Actor) : Actor × ReplenishResult :=
  let r := replenishHitDice a
  (r.1, r.2.1)

/-! ## Derived predicates and concrete fixtures -/

/-- The module invariant on the persisted hit-dice flag: absent, or within
`[0, getMaxHitDice]`. -/
def hdInvariant (a : Actor) : Bool :=
  match a.hdFlag with
  | none => true
  | some v => decide (0 ≤ v) && decide (v ≤ getMaxHitDice a)

/-- Events that are field-update persistence calls (an `item.update` or the
batched `actor.update`). -/
def Event.isUpdateCall : Event → Bool
  | .itemUpdate _ => true
  | .batchedActorUpdate => true
  | _ => false

/-- Events that are the batched `actor.update(updates)` call. -/
def Event.isBatched : Event → Bool
  | .batchedActorUpdate => true
  | _ => false

/-- Identity and spell slots of an item, the projection the Long Rest steps
leave untouched. -/
def projItem (i : Item) : Nat × List (Nat × SlotData) :=
  (i.id, i.slots)

/-- The wand loop acting on one item. -/
def wandFix (i : Item) : Item :=
  if isWandWithFrequency i then rechargeItemFrequency i else i

/-- The per-day frequency loop acting on one item. -/
def freqFix (i : Item) : Item :=
  if isDailyFrequencyBelowMax i then rechargeItemFrequency i else i

/-- Level-3 actor at 10/20 HP with 4 of 4 hit dice stored: fixture for the
healing-roll theorems. -/
def rollActor : Actor :=
  ⟨some 3, some 4, 10, 20, some 2, none, none, none, false, none, none,
   false, false, []⟩

/-- A prepared spellcasting entry with one partly depleted level-5 slot. -/
def c5Entry : Item :=
  ⟨7, ItemKind.spellcastingEntry, none, none, false, [(5, ⟨1, 3⟩)]⟩

/-- Level-5 actor with 6 of 6 hit dice and the level-5 entry: fixture for the
spell-slot restoration theorem. -/
def c5Actor : Actor :=
  ⟨some 5, some 6, 10, 20, none, none, none, none, false, none, none,
   false, false, [c5Entry]⟩

/-- Fixture for the Long Rest condition scenario: fatigued, doomed at one,
wounded, below max HP, one of four hit dice. -/
def c6Actor : Actor :=
  ⟨some 3, some 1, 10, 20, none, none, none, none, true, some 1, none,
   true, false, []⟩

/-- Fixture for the Full Rest degradation theorem: one of four hit dice,
half HP. -/
def c8Actor : Actor :=
  ⟨some 3, some 1, 10, 20, none, none, none, none, false, none, none,
   false, false, []⟩

/-- Fixture for the Long Rest write-count analysis: empty pool, depleted
focus pool, and one daily-frequency item out of charges. -/
def c9Actor : Actor :=
  ⟨some 1, some 0, 5, 10, none, none, some ⟨0, 2⟩, none, false, none, none,
   false, false, [⟨1, ItemKind.other, none, some ⟨0, 1, Per.day⟩, false, []⟩]⟩

/-- Fixture with a stale stored pool of 10 on a level-3 actor (max 4). -/
def c10Actor : Actor :=
  ⟨some 3, some 10, 10, 20, none, none, none, none, false, none, none,
   false, false, []⟩

/-! ## Basic lemmas -/

theorem getCurrent_of_flag (a : Actor) (s : Int) (h : a.hdFlag = some s) :
    getCurrentHitDice a = s := by
  simp [getCurrentHitDice, h]

theorem setCurrentHitDice_eq (a : Actor) (v : Int) :
    setCurrentHitDice a v
      = { a with hdFlag := some (max 0 (min v (getMaxHitDice a))) } := rfl

theorem getMax_hp_set (a : Actor) (x : Int) :
    getMaxHitDice { a with hp := x } = getMaxHitDice a := rfl

/-! ## C7: calculateRange bounds -/

/-- C7: for all integers n ≥ 1, d ∈ {6,8,10,12}, c ∈ [-5,10], calculateRange
returns min = max(n, n + c·n) and max = max(n, d·n + c·n), with min ≤ max,
min ≥ n and max ≥ n. -/
theorem C7_calculateRange_bounds (n d c : Int) (hn : 1 ≤ n)
    (hd : d = 6 ∨ d = 8 ∨ d = 10 ∨ d = 12) (_hc1 : -5 ≤ c) (_hc2 : c ≤ 10) :
    (calculateRange n d c).min = max n (n + c * n) ∧
    (calculateRange n d c).max = max n (d * n + c * n) ∧
    (calculateRange n d c).min ≤ (calculateRange n d c).max ∧
    n ≤ (calculateRange n d c).min ∧
    n ≤ (calculateRange n d c).max := by
  have hd1 : (1 : Int) ≤ d := by rcases hd with h | h | h | h <;> omega
  have hnn : (0 : Int) ≤ n := by omega
  have hmul : n ≤ d * n := le_mul_of_one_le_left hnn hd1
  have e1 : (calculateRange n d c).min = max n (n + c * n) := rfl
  have e2 : (calculateRange n d c).max = max n (d * n + c * n) := rfl
  refine ⟨e1, e2, ?_, ?_, ?_⟩
  · rw [e1, e2]
    exact max_le_max le_rfl (by linarith)
  · rw [e1]
    exact le_max_left _ _
  · rw [e2]
    exact le_max_left _ _

/-- Witness for C7 at n = 2, d = 8, c = 3 (the documented level-5 scenario). -/
theorem C7_calculateRange_bounds_witness :
    (calculateRange 2 8 3).min ≤ (calculateRange 2 8 3).max ∧
    (2 : Int) ≤ (calculateRange 2 8 3).min ∧
    (2 : Int) ≤ (calculateRange 2 8 3).max := by
  have h := C7_calculateRange_bounds 2 8 3 (by norm_num)
    (Or.inr (Or.inl rfl)) (by norm_num) (by norm_num)
  exact ⟨h.2.2.1, h.2.2.2.1, h.2.2.2.2⟩

/-! ## C1: successful rollAndHeal -/

/-- C1: with the stored pool in `[0, max]` and `1 ≤ diceCount ≤ stored`,
rollAndHeal succeeds, its actualHealing equals
`min(max(rollTotal, diceCount), maxHP − currentHP)`, the persisted HP equals
`currentHP + actualHealing`, and the stored pool drops by exactly diceCount. -/
theorem C1_rollAndHeal_success (a : Actor) (s diceCount rollTotal : Int)
    (hflag : a.hdFlag = some s) (_h0 : 0 ≤ s) (hsm : s ≤ getMaxHitDice a)
    (h1 : 1 ≤ diceCount) (h2 : diceCount ≤ s) :
    (rollAndHeal a diceCount rollTotal).isSuccess = true ∧
    (rollAndHeal a diceCount rollTotal).actualHealingOf
      = some (min (max rollTotal diceCount) (a.hpMax - a.hp)) ∧
    (rollAndHeal a diceCount rollTotal).actorOf.hp
      = a.hp + min (max rollTotal diceCount) (a.hpMax - a.hp) ∧
    (rollAndHeal a diceCount rollTotal).actorOf.hdFlag = some (s - diceCount) := by
  have hcur : getCurrentHitDice a = s := getCurrent_of_flag a s hflag
  have hgt : ¬ (diceCount > s) := by omega
  have hlt : ¬ (diceCount < 1) := by omega
  simp only [rollAndHeal, hcur, if_neg hgt, if_neg hlt]
  simp only [RollResult.isSuccess, RollResult.actualHealingOf, RollResult.actorOf]
  refine ⟨trivial, ?_, ?_, ?_⟩
  · congr 1
    omega
  · simp only [setCurrentHitDice]
    omega
  · simp only [setCurrentHitDice, getMax_hp_set]
    congr 1
    omega

/-- Witness for C1: the level-3 fixture spends 2 of 4 dice on a roll of 9,
healing 9 up to 19 of 20 HP with 2 dice left. -/
theorem C1_rollAndHeal_success_witness :
    (rollAndHeal rollActor 2 9).isSuccess = true ∧
    (rollAndHeal rollActor 2 9).actualHealingOf = some 9 ∧
    (rollAndHeal rollActor 2 9).actorOf.hp = 19 ∧
    (rollAndHeal rollActor 2 9).actorOf.hdFlag = some 2 := by
  have h := C1_rollAndHeal_success rollActor 4 2 9 rfl (by norm_num)
    (by decide) (by norm_num) (by norm_num)
  refine ⟨h.1, ?_, ?_, ?_⟩
  · rw [h.2.1]
    decide
  · rw [h.2.2.1]
    decide
  · rw [h.2.2.2]
    norm_num

/-! ## C3: rollAndHeal validation failures -/

/-- C3: with a nonnegative pool, a request below one die or above the pool
fails with the matching warning, performs no roll (the outcome does not depend
on the roll total), and leaves the actor, hence pool and HP, unchanged. -/
theorem C3_rollAndHeal_validation (a : Actor) (dc rt : Int)
    (hcur : 0 ≤ getCurrentHitDice a)
    (h : dc < 1 ∨ getCurrentHitDice a < dc) :
    (∀ rt2 : Int, rollAndHeal a dc rt2 = rollAndHeal a dc rt) ∧
    (getCurrentHitDice a < dc →
      rollAndHeal a dc rt = .failure a .insufficientDice) ∧
    (dc < 1 → rollAndHeal a dc rt = .failure a .belowMinimumDiceCount) ∧
    (rollAndHeal a dc rt).actorOf = a ∧
    (rollAndHeal a dc rt).isSuccess = false := by
  by_cases hgt : dc > getCurrentHitDice a
  · have heq : ∀ r : Int, rollAndHeal a dc r = .failure a .insufficientDice := by
      intro r
      simp only [rollAndHeal, if_pos hgt]
    refine ⟨fun rt2 => by rw [heq, heq], fun _ => heq rt,
      fun hlt => (by omega : False).elim, by rw [heq] ; rfl, by rw [heq] ; rfl⟩
  · have hlt : dc < 1 := by
      rcases h with h1 | h1
      · exact h1
      · exact absurd h1 hgt
    have heq : ∀ r : Int,
        rollAndHeal a dc r = .failure a .belowMinimumDiceCount := by
      intro r
      simp only [rollAndHeal, if_neg hgt, if_pos hlt]
    refine ⟨fun rt2 => by rw [heq, heq], fun hc => absurd hc hgt,
      fun _ => heq rt, by rw [heq] ; rfl, by rw [heq] ; rfl⟩

/-- Witness for C3: requesting zero dice on the fixture fails with the
below-minimum warning and leaves the actor untouched. -/
theorem C3_rollAndHeal_validation_witness :
    rollAndHeal rollActor 0 5 = .failure rollActor .belowMinimumDiceCount ∧
    (rollAndHeal rollActor 0 5).actorOf = rollActor := by
  have h := C3_rollAndHeal_validation rollActor 0 5 (by decide)
    (Or.inl (by norm_num))
  exact ⟨h.2.2.1 (by norm_num), h.2.2.2.1⟩

/-! ## Replenishment lemmas -/

theorem replenishHitDice_below (a : Actor)
    (h : getCurrentHitDice a < getMaxHitDice a) :
    replenishHitDice a
      = (setCurrentHitDice a (getMaxHitDice a),
         ⟨getMaxHitDice a - getCurrentHitDice a, getMaxHitDice a⟩,
         [Event.setFlagHD]) := by
  simp only [replenishHitDice, if_pos h]

theorem replenishHitDice_full (a : Actor)
    (h : ¬ getCurrentHitDice a < getMaxHitDice a) :
    replenishHitDice a = (a, ⟨0, getMaxHitDice a⟩, []) := by
  simp only [replenishHitDice, if_neg h]

theorem replenishHitDice_current (a : Actor)
    (h0 : 0 ≤ getCurrentHitDice a) (h1 : getCurrentHitDice a ≤ getMaxHitDice a) :
    getCurrentHitDice (replenishHitDice a).1 = getMaxHitDice a := by
  by_cases h : getCurrentHitDice a < getMaxHitDice a
  · rw [replenishHitDice_below a h]
    have : (setCurrentHitDice a (getMaxHitDice a)).hdFlag
        = some (max 0 (min (getMaxHitDice a) (getMaxHitDice a))) := rfl
    rw [getCurrent_of_flag _ _ this]
    omega
  · rw [replenishHitDice_full a h]
    show getCurrentHitDice a = getMaxHitDice a
    omega

theorem replenishHitDice_fields (a : Actor) :
    (replenishHitDice a).1.level = a.level ∧
    (replenishHitDice a).1.hp = a.hp ∧
    (replenishHitDice a).1.hpMax = a.hpMax ∧
    (replenishHitDice a).1.focus = a.focus ∧
    (replenishHitDice a).1.infusedReagents = a.infusedReagents ∧
    (replenishHitDice a).1.fatigued = a.fatigued ∧
    (replenishHitDice a).1.doomed = a.doomed ∧
    (replenishHitDice a).1.drained = a.drained ∧
    (replenishHitDice a).1.wounded = a.wounded ∧
    (replenishHitDice a).1.dailyCraftingComplete = a.dailyCraftingComplete ∧
    (replenishHitDice a).1.items = a.items := by
  by_cases h : getCurrentHitDice a < getMaxHitDice a
  · rw [replenishHitDice_below a h]
    exact ⟨rfl, rfl, rfl, rfl, rfl, rfl, rfl, rfl, rfl, rfl, rfl⟩
  · rw [replenishHitDice_full a h]
    exact ⟨rfl, rfl, rfl, rfl, rfl, rfl, rfl, rfl, rfl, rfl, rfl⟩

/-! ## C10: stale stored pool is not re-clamped -/

/-- C10: when the stored flag exceeds the derived max, getCurrentHitDice
returns it unclamped, replenishHitDice leaves the actor untouched and reports
zero dice replenished, and the pool afterwards still differs from the max. -/
theorem C10_stale_pool_unclamped (a : Actor) (s : Int)
    (hflag : a.hdFlag = some s) (h : getMaxHitDice a < s) :
    getCurrentHitDice a = s ∧
    (replenishHitDice a).1 = a ∧
    (replenishHitDice a).2.1.replenished = 0 ∧
    getCurrentHitDice (replenishHitDice a).1 ≠ getMaxHitDice a := by
  have hcur : getCurrentHitDice a = s := getCurrent_of_flag a s hflag
  have hnl : ¬ getCurrentHitDice a < getMaxHitDice a := by omega
  rw [replenishHitDice_full a hnl]
  refine ⟨hcur, rfl, rfl, ?_⟩
  show getCurrentHitDice a ≠ getMaxHitDice a
  omega

/-- Witness for C10: stored 10 on a level-3 actor (max 4) survives a
replenish call untouched and ends different from the max. -/
theorem C10_stale_pool_unclamped_witness :
    getCurrentHitDice c10Actor = 10 ∧
    (replenishHitDice c10Actor).1 = c10Actor ∧
    (replenishHitDice c10Actor).2.1.replenished = 0 ∧
    getCurrentHitDice (replenishHitDice c10Actor).1 ≠ getMaxHitDice c10Actor :=
  C10_stale_pool_unclamped c10Actor 10 rfl (by decide)

/-! ## C8: Full Rest with the external hook absent -/

/-- C8: with the external complete-rest capability absent and the pool within
`[0, max]`, Full Rest still replenishes the pool to max and leaves HP
unchanged. -/
theorem C8_fullRest_degrades (a : Actor)
    (h0 : 0 ≤ getCurrentHitDice a)
    (h1 : getCurrentHitDice a ≤ getMaxHitDice a) :
    getCurrentHitDice (performFullRestNoHook a).1 = getMaxHitDice a ∧
    (performFullRestNoHook a).1.hp = a.hp := by
  refine ⟨?_, ?_⟩
  · show getCurrentHitDice (replenishHitDice a).1 = getMaxHitDice a
    exact replenishHitDice_current a h0 h1
  · show (replenishHitDice a).1.hp = a.hp
    exact (replenishHitDice_fields a).2.1

/-- Witness for C8: the half-HP fixture ends at 4 of 4 dice with HP still
at 10. -/
theorem C8_fullRest_degrades_witness :
    getCurrentHitDice (performFullRestNoHook c8Actor).1 = getMaxHitDice c8Actor ∧
    (performFullRestNoHook c8Actor).1.hp = c8Actor.hp :=
  C8_fullRest_degrades c8Actor (by decide) (by decide)

/-! ## Spell-slot lemmas -/

theorem getMax_updateEntrySlot (a : Actor) (e l : Nat) (v : Int) :
    getMaxHitDice (updateEntrySlot a e l v) = getMaxHitDice a := rfl

theorem slotValueAt_setCurrent (a : Actor) (w : Int) (e l : Nat) :
    slotValueAt (setCurrentHitDice a w) e l = slotValueAt a e l := rfl

theorem setSlotValue_lookup (i : Item) (level : Nat) (v : Int) :
    slotLookup (setSlotValue i level v) level
      = (slotLookup i level).map (fun sd => ⟨v, sd.max⟩) := by
  have hg : ((fun p : Nat × SlotData => p.1 == level) ∘
      (fun p : Nat × SlotData =>
        if p.1 == level then (p.1, { p.2 with value := v }) else p))
      = (fun p : Nat × SlotData => p.1 == level) := by
    funext p
    simp only [Function.comp_apply]
    split <;> rfl
  simp only [slotLookup, setSlotValue, List.find?_map, hg]
  cases hf : i.slots.find? (fun p => p.1 == level) with
  | none => rfl
  | some p0 =>
    have hp := List.find?_some hf
    have hp2 : p0.1 = level := by simpa using hp
    simp [hp2]

theorem slotValueAt_update (a : Actor) (entryId level : Nat) (v : Int)
    (entry : Item)
    (hfind : a.items.find? (fun i => i.id == entryId) = some entry) :
    slotValueAt (updateEntrySlot a entryId level v) entryId level
      = (slotLookup entry level).map (fun _ => v) := by
  have hg : ((fun i : Item => i.id == entryId) ∘
      (fun i : Item => if i.id == entryId then setSlotValue i level v else i))
      = (fun i : Item => i.id == entryId) := by
    funext i
    simp only [Function.comp_apply]
    split <;> rfl
  have hp := List.find?_some hfind
  simp only [slotValueAt, updateEntrySlot, List.find?_map, hg, hfind,
    Option.map_some']
  rw [if_pos hp]
  show (slotLookup (setSlotValue entry level v) level).map SlotData.value = _
  rw [setSlotValue_lookup]
  cases hsl : slotLookup entry level <;> rfl

/-! ## C5: restoreSpellslot -/

/-- C5: restoring a level-L slot costs exactly L hit dice.  With the pool in
`[0, max]`: a cost above the pool fails with InsufficientDice; a missing entry
fails with EntryNotFound; a slot at or above max fails with SlotFull — each
failure leaving the actor untouched; otherwise the slot value rises by one and
the stored pool drops by exactly L. -/
theorem C5_restoreSpellslot (a : Actor) (s : Int) (entryId L : Nat)
    (hflag : a.hdFlag = some s) (h0 : 0 ≤ s) (hm : s ≤ getMaxHitDice a) :
    ((s < (L : Int)) →
      restoreSpellslot a entryId L = .failure a .insufficientDice) ∧
    (((L : Int) ≤ s) → a.items.find? (fun i => i.id == entryId) = none →
      restoreSpellslot a entryId L = .failure a .entryNotFound) ∧
    (∀ entry : Item, ∀ sd : SlotData, ((L : Int) ≤ s) →
      a.items.find? (fun i => i.id == entryId) = some entry →
      slotLookup entry L = some sd → sd.max ≤ sd.value →
      restoreSpellslot a entryId L = .failure a .slotFull) ∧
    (∀ entry : Item, ∀ sd : SlotData, ((L : Int) ≤ s) →
      a.items.find? (fun i => i.id == entryId) = some entry →
      slotLookup entry L = some sd → sd.value < sd.max →
      (restoreSpellslot a entryId L).isSuccess = true ∧
      (restoreSpellslot a entryId L).actorOf.hdFlag = some (s - (L : Int)) ∧
      slotValueAt (restoreSpellslot a entryId L).actorOf entryId L
        = some (sd.value + 1)) := by
  have hcur : getCurrentHitDice a = s := getCurrent_of_flag a s hflag
  refine ⟨?_, ?_, ?_, ?_⟩
  · intro hL
    have hgt : ((L : Int) > getCurrentHitDice a) := by omega
    simp only [restoreSpellslot, if_pos hgt]
  · intro hL hfind
    have hgt : ¬ ((L : Int) > getCurrentHitDice a) := by omega
    simp only [restoreSpellslot, if_neg hgt, hfind]
  · intro entry sd hL hfind hsl hfull
    have hgt : ¬ ((L : Int) > getCurrentHitDice a) := by omega
    have hge : sd.value ≥ sd.max := hfull
    simp only [restoreSpellslot, if_neg hgt, hfind, hsl, if_pos hge]
  · intro entry sd hL hfind hsl hlt
    have hgt : ¬ ((L : Int) > getCurrentHitDice a) := by omega
    have hge : ¬ (sd.value ≥ sd.max) := by omega
    have heq : restoreSpellslot a entryId L
        = .success (setCurrentHitDice
            (updateEntrySlot a entryId L (sd.value + 1))
            (getCurrentHitDice a - (L : Int))) := by
      simp only [restoreSpellslot, if_neg hgt, hfind, hsl, if_neg hge]
    rw [heq]
    refine ⟨rfl, ?_, ?_⟩
    · show (setCurrentHitDice (updateEntrySlot a entryId L (sd.value + 1))
        (getCurrentHitDice a - (L : Int))).hdFlag = some (s - (L : Int))
      rw [setCurrentHitDice_eq, getMax_updateEntrySlot]
      show some (max 0 (min (getCurrentHitDice a - (L : Int)) (getMaxHitDice a)))
        = some (s - (L : Int))
      congr 1
      omega
    · show slotValueAt (setCurrentHitDice
          (updateEntrySlot a entryId L (sd.value + 1))
          (getCurrentHitDice a - (L : Int))) entryId L = some (sd.value + 1)
      rw [slotValueAt_setCurrent, slotValueAt_update a entryId L _ entry hfind,
        hsl]
      rfl

/-- Witness for C5: the level-5 fixture restores its level-5 slot from 1 to 2
of 3 for exactly 5 of its 6 hit dice. -/
theorem C5_restoreSpellslot_witness :
    (restoreSpellslot c5Actor 7 5).isSuccess = true ∧
    (restoreSpellslot c5Actor 7 5).actorOf.hdFlag = some 1 ∧
    slotValueAt (restoreSpellslot c5Actor 7 5).actorOf 7 5 = some 2 := by
  have h := (C5_restoreSpellslot c5Actor 6 7 5 rfl (by norm_num)
      (by decide)).2.2.2 c5Entry ⟨1, 3⟩ (by norm_num) (by decide) (by decide)
      (by norm_num)
  refine ⟨h.1, ?_, ?_⟩
  · rw [h.2.1]
    decide
  · rw [h.2.2]
    decide

/-! ## Shape lemmas for the Long Rest pipeline -/

theorem replenishHitDice_shape (a : Actor) :
    ∃ hd, (replenishHitDice a).1 = { a with hdFlag := hd } := by
  by_cases h : getCurrentHitDice a < getMaxHitDice a
  · exact ⟨some (max 0 (min (getMaxHitDice a) (getMaxHitDice a))),
      by rw [replenishHitDice_below a h] ; rfl⟩
  · exact ⟨a.hdFlag, by rw [replenishHitDice_full a h]⟩

theorem stepFatigued_shape (a : Actor) :
    ∃ f ms es, stepFatigued a = ({ a with fatigued := f }, ms, es) := by
  rcases a with ⟨lv, hd, hp0, hpM, cm, cn, fo, re, fa, doo, dra, wo, dcc, its⟩
  cases fa
  · exact ⟨false, [], [], rfl⟩
  · exact ⟨false, [Msg.conditionRemoved Cond.fatigued],
      [Event.conditionUpdate Cond.fatigued], rfl⟩

theorem stepDoomed_shape (a : Actor) :
    ∃ d ms es, stepDoomed a = ({ a with doomed := d }, ms, es) := by
  rcases a with ⟨lv, hd, hp0, hpM, cm, cn, fo, re, fa, doo, dra, wo, dcc, its⟩
  rcases doo with _ | v
  · exact ⟨none, [], [], rfl⟩
  · by_cases hv : v ≤ 1
    · exact ⟨none, [Msg.conditionRemoved Cond.doomed],
        [Event.conditionUpdate Cond.doomed], by simp [stepDoomed, hv]⟩
    · exact ⟨some (v - 1), [Msg.conditionReduced Cond.doomed],
        [Event.conditionUpdate Cond.doomed], by simp [stepDoomed, hv]⟩

theorem stepDrained_shape (a : Actor) :
    ∃ dr ms es, stepDrained a = ({ a with drained := dr }, ms, es) := by
  rcases a with ⟨lv, hd, hp0, hpM, cm, cn, fo, re, fa, doo, dra, wo, dcc, its⟩
  rcases dra with _ | v
  · exact ⟨none, [], [], rfl⟩
  · by_cases hv : v ≤ 1
    · exact ⟨none, [Msg.conditionRemoved Cond.drained],
        [Event.conditionUpdate Cond.drained], by simp [stepDrained, hv]⟩
    · exact ⟨some (v - 1), [Msg.conditionReduced Cond.drained],
        [Event.conditionUpdate Cond.drained], by simp [stepDrained, hv]⟩

theorem stepWounded_shape (a : Actor) :
    ∃ w ms es, stepWounded a = ({ a with wounded := w }, ms, es) := by
  rcases a with ⟨lv, hd, hp0, hpM, cm, cn, fo, re, fa, doo, dra, wo, dcc, its⟩
  cases wo
  · exact ⟨false, [], [], rfl⟩
  · by_cases hhp : hp0 ≥ hpM
    · exact ⟨false, [Msg.conditionRemoved Cond.wounded],
        [Event.conditionUpdate Cond.wounded], by simp [stepWounded, hhp]⟩
    · exact ⟨true, [Msg.woundsNotHealed], [], by simp [stepWounded, hhp]⟩

theorem handleRestConditions_shape (a : Actor) :
    ∃ f d dr w, (handleRestConditions a).1
      = { a with fatigued := f, doomed := d, drained := dr, wounded := w } := by
  obtain ⟨f, ms1, es1, h1⟩ := stepFatigued_shape a
  obtain ⟨d, ms2, es2, h2⟩ := stepDoomed_shape (stepFatigued a).1
  obtain ⟨dr, ms3, es3, h3⟩ := stepDrained_shape (stepDoomed (stepFatigued a).1).1
  obtain ⟨w, ms4, es4, h4⟩ :=
    stepWounded_shape (stepDrained (stepDoomed (stepFatigued a).1).1).1
  refine ⟨f, d, dr, w, ?_⟩
  show (stepWounded (stepDrained (stepDoomed (stepFatigued a).1).1).1).1 = _
  rw [h4, h3, h2, h1]

theorem applyUpdates_shape (a : Actor) (u : Updates) :
    ∃ fo re, applyUpdates a u = { a with focus := fo, infusedReagents := re } := by
  rcases hf : u.focusValue with _ | v <;> rcases hr : u.reagentsValue with _ | w
  · exact ⟨a.focus, a.infusedReagents, by simp [applyUpdates, hf, hr]⟩
  · exact ⟨a.focus, a.infusedReagents.map (fun r => { r with value := w }),
      by simp [applyUpdates, hf, hr]⟩
  · exact ⟨a.focus.map (fun f0 => { f0 with value := v }), a.infusedReagents,
      by simp [applyUpdates, hf, hr]⟩
  · exact ⟨a.focus.map (fun f0 => { f0 with value := v }),
      a.infusedReagents.map (fun r => { r with value := w }),
      by simp [applyUpdates, hf, hr]⟩

theorem refreshDailyResources_shape (a : Actor) (u : Updates) :
    ∃ its dc, (refreshDailyResources a u).1
      = { a with dailyCraftingComplete := dc, items := its } := by
  simp only [refreshDailyResources]
  by_cases hc : a.dailyCraftingComplete = true <;>
    simp only [hc, if_true, if_false, Bool.false_eq_true] <;>
    split <;>
    exact ⟨_, _, rfl⟩

/-! ## Unfolding equations for performLongRest -/

theorem performLongRest_actor_eq (a : Actor) :
    (performLongRest a).actor
      = (if (refreshDailyResources (handleRestConditions (replenishHitDice a).1).1
              (longRestFocusStep (replenishHitDice a).1).1).2.1.nonempty
         then applyUpdates
            (refreshDailyResources (handleRestConditions (replenishHitDice a).1).1
              (longRestFocusStep (replenishHitDice a).1).1).1
            (refreshDailyResources (handleRestConditions (replenishHitDice a).1).1
              (longRestFocusStep (replenishHitDice a).1).1).2.1
         else (refreshDailyResources (handleRestConditions (replenishHitDice a).1).1
              (longRestFocusStep (replenishHitDice a).1).1).1) := rfl

theorem performLongRest_messages_eq (a : Actor) :
    (performLongRest a).messages
      = (if (replenishHitDice a).2.1.replenished > 0
          then [Msg.hitDiceRestored (replenishHitDice a).2.1.replenished]
          else [Msg.hitDiceAlreadyFull])
        ++ (longRestFocusStep (replenishHitDice a).1).2
        ++ (handleRestConditions (replenishHitDice a).1).2.1
        ++ (refreshDailyResources (handleRestConditions (replenishHitDice a).1).1
              (longRestFocusStep (replenishHitDice a).1).1).2.2.1 := rfl

theorem performLongRest_events_eq (a : Actor) :
    (performLongRest a).events
      = (replenishHitDice a).2.2
        ++ (handleRestConditions (replenishHitDice a).1).2.2
        ++ (refreshDailyResources (handleRestConditions (replenishHitDice a).1).1
              (longRestFocusStep (replenishHitDice a).1).1).2.2.2
        ++ (if (refreshDailyResources (handleRestConditions (replenishHitDice a).1).1
              (longRestFocusStep (replenishHitDice a).1).1).2.1.nonempty
            then [Event.batchedActorUpdate] else [])
        ++ [Event.chatMessage] := rfl

theorem pipeline_shape (a1 : Actor) (u : Updates) :
    ∃ f d dr w dcc its,
      (refreshDailyResources (handleRestConditions a1).1 u).1
        = { a1 with
            fatigued := f, doomed := d, drained := dr, wounded := w,
            dailyCraftingComplete := dcc, items := its } := by
  obtain ⟨f, d, dr, w, h3⟩ := handleRestConditions_shape a1
  obtain ⟨its, dcc, h4⟩ := refreshDailyResources_shape (handleRestConditions a1).1 u
  refine ⟨f, d, dr, w, dcc, its, ?_⟩
  rw [h4, h3]

theorem finalStep_shape (b : Actor) (u : Updates) :
    ∃ fo re, (if u.nonempty then applyUpdates b u else b)
      = { b with focus := fo, infusedReagents := re } := by
  by_cases h : u.nonempty = true
  · obtain ⟨fo, re, hs⟩ := applyUpdates_shape b u
    exact ⟨fo, re, by rw [if_pos h, hs]⟩
  · exact ⟨b.focus, b.infusedReagents, by rw [if_neg h]⟩

theorem performLongRest_shape (a : Actor) :
    ∃ f d dr w dcc its fo re,
      (performLongRest a).actor
        = { (replenishHitDice a).1 with
            fatigued := f, doomed := d, drained := dr, wounded := w,
            dailyCraftingComplete := dcc, items := its,
            focus := fo, infusedReagents := re } := by
  obtain ⟨f, d, dr, w, dcc, its, h4⟩ :=
    pipeline_shape (replenishHitDice a).1 (longRestFocusStep (replenishHitDice a).1).1
  obtain ⟨fo, re, h5⟩ := finalStep_shape
    (refreshDailyResources (handleRestConditions (replenishHitDice a).1).1
      (longRestFocusStep (replenishHitDice a).1).1).1
    (refreshDailyResources (handleRestConditions (replenishHitDice a).1).1
      (longRestFocusStep (replenishHitDice a).1).1).2.1
  refine ⟨f, d, dr, w, dcc, its, fo, re, ?_⟩
  rw [performLongRest_actor_eq, h5, h4]

/-! ## Invariant lemmas -/

theorem getMax_flag_set (a : Actor) (x : Option Int) :
    getMaxHitDice { a with hdFlag := x } = getMaxHitDice a := rfl

theorem hdInvariant_some (a : Actor) (v : Int) (h : a.hdFlag = some v)
    (hinv : hdInvariant a = true) : 0 ≤ v ∧ v ≤ getMaxHitDice a := by
  simp only [hdInvariant, h, Bool.and_eq_true, decide_eq_true_eq] at hinv
  exact hinv

theorem hdInvariant_of (a : Actor)
    (h : ∀ v, a.hdFlag = some v → 0 ≤ v ∧ v ≤ getMaxHitDice a) :
    hdInvariant a = true := by
  cases hf : a.hdFlag with
  | none => simp [hdInvariant, hf]
  | some v =>
    have hv := h v hf
    simp [hdInvariant, hf, hv.1, hv.2]

theorem hdInvariant_congr (a b : Actor) (hf : a.hdFlag = b.hdFlag)
    (hl : a.level = b.level) : hdInvariant a = hdInvariant b := by
  have hm : getMaxHitDice a = getMaxHitDice b := by
    simp [getMaxHitDice, hl]
  unfold hdInvariant
  rw [hf, hm]

theorem hdInvariant_setCurrent (a : Actor) (v : Int)
    (hm : 0 ≤ getMaxHitDice a) :
    hdInvariant (setCurrentHitDice a v) = true := by
  apply hdInvariant_of
  intro w hw
  rw [setCurrentHitDice_eq] at hw
  have hx : getMaxHitDice (setCurrentHitDice a v) = getMaxHitDice a := rfl
  rw [hx]
  have : max 0 (min v (getMaxHitDice a)) = w := by
    simpa using hw
  omega

theorem getMax_nonneg_of_inv (a : Actor) (hinv : hdInvariant a = true)
    (h : 1 ≤ getCurrentHitDice a) : 0 ≤ getMaxHitDice a := by
  cases hf : a.hdFlag with
  | none =>
    have : getCurrentHitDice a = getMaxHitDice a := by
      simp [getCurrentHitDice, hf]
    omega
  | some s =>
    have := hdInvariant_some a s hf hinv
    omega

theorem hdInvariant_rollAndHeal (a : Actor) (dc rt : Int)
    (hinv : hdInvariant a = true) :
    hdInvariant (rollAndHeal a dc rt).actorOf = true := by
  by_cases h1 : dc > getCurrentHitDice a
  · simp only [rollAndHeal, if_pos h1, RollResult.actorOf]
    exact hinv
  · by_cases h2 : dc < 1
    · simp only [rollAndHeal, if_neg h1, if_pos h2, RollResult.actorOf]
      exact hinv
    · simp only [rollAndHeal, if_neg h1, if_neg h2, RollResult.actorOf]
      apply hdInvariant_setCurrent
      rw [getMax_hp_set]
      exact getMax_nonneg_of_inv a hinv (by omega)

theorem hdInvariant_replenish (a : Actor) (hinv : hdInvariant a = true) :
    hdInvariant (replenishHitDice a).1 = true := by
  by_cases h : getCurrentHitDice a < getMaxHitDice a
  · rw [replenishHitDice_below a h]
    show hdInvariant (setCurrentHitDice a (getMaxHitDice a)) = true
    apply hdInvariant_setCurrent
    cases hf : a.hdFlag with
    | none =>
      have : getCurrentHitDice a = getMaxHitDice a := by
        simp [getCurrentHitDice, hf]
      omega
    | some s =>
      have := hdInvariant_some a s hf hinv
      omega
  · rw [replenishHitDice_full a h]
    exact hinv

theorem hdInvariant_restoreSlot (a : Actor) (e l : Nat)
    (hinv : hdInvariant a = true) :
    hdInvariant (restoreSpellslot a e l).actorOf = true := by
  simp only [restoreSpellslot]
  by_cases h1 : ((l : Int) > getCurrentHitDice a)
  · simp only [if_pos h1, SlotResult.actorOf]
    exact hinv
  · simp only [if_neg h1]
    cases hfind : a.items.find? (fun i => i.id == e) with
    | none =>
      simp only [hfind, SlotResult.actorOf]
      exact hinv
    | some entry =>
      simp only [hfind]
      cases hsl : slotLookup entry l with
      | none =>
        simp only [hsl, SlotResult.actorOf]
        exact hinv
      | some sd =>
        simp only [hsl]
        by_cases hfull : sd.value ≥ sd.max
        · simp only [if_pos hfull, SlotResult.actorOf]
          exact hinv
        · simp only [if_neg hfull, SlotResult.actorOf]
          apply hdInvariant_setCurrent
          rw [getMax_updateEntrySlot]
          cases hf : a.hdFlag with
          | none =>
            have : getCurrentHitDice a = getMaxHitDice a := by
              simp [getCurrentHitDice, hf]
            omega
          | some s =>
            have := hdInvariant_some a s hf hinv
            omega

theorem hdInvariant_performLongRest (a : Actor) (hinv : hdInvariant a = true) :
    hdInvariant (performLongRest a).actor = true := by
  obtain ⟨f, d, dr, w, dcc, its, fo, re, hsh⟩ := performLongRest_shape a
  have hcg : hdInvariant (performLongRest a).actor
      = hdInvariant (replenishHitDice a).1 := by
    apply hdInvariant_congr
    · rw [hsh]
    · rw [hsh]
  rw [hcg]
  exact hdInvariant_replenish a hinv

/-! ## C2: every write clamps; the invariant is preserved -/

/-- C2: getMax is level + 1; setCurrentHitDice always persists the requested
value clamped into `[0, getMax]` (succeeding unconditionally), so it
establishes the pool invariant whenever the max is nonnegative; and every
operation of the module preserves `0 ≤ stored ≤ level + 1`. -/
theorem C2_setCurrent_clamps :
    (∀ a : Actor, getMaxHitDice a = a.level.getD 1 + 1) ∧
    (∀ (a : Actor) (v : Int),
      (setCurrentHitDice a v).hdFlag
        = some (max 0 (min v (getMaxHitDice a)))) ∧
    (∀ (a : Actor) (v : Int), 0 ≤ getMaxHitDice a →
      hdInvariant (setCurrentHitDice a v) = true) ∧
    (∀ (a : Actor) (dc rt : Int), hdInvariant a = true →
      hdInvariant (rollAndHeal a dc rt).actorOf = true) ∧
    (∀ a : Actor, hdInvariant a = true →
      hdInvariant (replenishHitDice a).1 = true) ∧
    (∀ (a : Actor) (e l : Nat), hdInvariant a = true →
      hdInvariant (restoreSpellslot a e l).actorOf = true) ∧
    (∀ a : Actor, hdInvariant a = true →
      hdInvariant (performLongRest a).actor = true) ∧
    (∀ a : Actor, hdInvariant a = true →
      hdInvariant (performFullRestNoHook a).1 = true) :=
  ⟨fun _ => rfl,
   fun a v => by rw [setCurrentHitDice_eq],
   fun a v hm => hdInvariant_setCurrent a v hm,
   fun a dc rt h => hdInvariant_rollAndHeal a dc rt h,
   fun a h => hdInvariant_replenish a h,
   fun a e l h => hdInvariant_restoreSlot a e l h,
   fun a h => hdInvariant_performLongRest a h,
   fun a h => hdInvariant_replenish a h⟩

/-- Witness for C2: clamping an out-of-range write on the stale fixture and a
full Long Rest on the condition fixture both end inside the invariant. -/
theorem C2_setCurrent_clamps_witness :
    hdInvariant (setCurrentHitDice c10Actor 99) = true ∧
    hdInvariant (performLongRest c6Actor).actor = true := by
  constructor
  · exact C2_setCurrent_clamps.2.2.1 c10Actor 99 (by decide)
  · exact C2_setCurrent_clamps.2.2.2.2.2.2.1 c6Actor (by decide)

/-! ## Item pass lemmas -/

theorem recharge_projItem (i : Item) :
    projItem (rechargeItemFrequency i) = projItem i := by
  cases h : i.frequency <;> simp [rechargeItemFrequency, h, projItem]

theorem recharge_temp (i : Item) :
    (rechargeItemFrequency i).temporary = i.temporary := by
  cases h : i.frequency <;> simp [rechargeItemFrequency, h]

theorem wandFix_projItem (i : Item) : projItem (wandFix i) = projItem i := by
  by_cases h : isWandWithFrequency i = true <;>
    simp [wandFix, h, recharge_projItem]

theorem wandFix_temp (i : Item) : (wandFix i).temporary = i.temporary := by
  by_cases h : isWandWithFrequency i = true <;>
    simp [wandFix, h, recharge_temp]

theorem freqFix_projItem (i : Item) : projItem (freqFix i) = projItem i := by
  by_cases h : isDailyFrequencyBelowMax i = true <;>
    simp [freqFix, h, recharge_projItem]

theorem freqFix_temp (i : Item) : (freqFix i).temporary = i.temporary := by
  by_cases h : isDailyFrequencyBelowMax i = true <;>
    simp [freqFix, h, recharge_temp]

theorem wandPass_items (l : List Item) : (wandPass l).1 = l.map wandFix := by
  induction l with
  | nil => rfl
  | cons i t ih =>
    by_cases h : isWandWithFrequency i = true <;>
      simp [wandPass, wandFix, h, ih]

theorem freqPass_items (l : List Item) : (freqPass l).1 = l.map freqFix := by
  induction l with
  | nil => rfl
  | cons i t ih =>
    by_cases h : isDailyFrequencyBelowMax i = true <;>
      simp [freqPass, freqFix, h, ih]

theorem proj_filter_chain (l : List Item) :
    (((l.map wandFix).map freqFix).filter (fun i => !i.temporary)).map projItem
      = (l.filter (fun i => !i.temporary)).map projItem := by
  induction l with
  | nil => rfl
  | cons i t ih =>
    have ht : (freqFix (wandFix i)).temporary = i.temporary := by
      rw [freqFix_temp, wandFix_temp]
    have hp : projItem (freqFix (wandFix i)) = projItem i := by
      rw [freqFix_projItem, wandFix_projItem]
    rw [List.map_map] at ih
    cases hb : i.temporary <;>
      simp [List.filter_cons, ht, hb, hp, ih]

/-! ## Daily-refresh item lemmas -/

theorem refreshDailyResources_items (b : Actor) (u : Updates) :
    (refreshDailyResources b u).1.items
      = (if ((((b.items.map wandFix).map freqFix).filter
            (fun i => i.temporary)).map Item.id).isEmpty
         then (b.items.map wandFix).map freqFix
         else ((b.items.map wandFix).map freqFix).filter
            (fun i => !i.temporary)) := by
  have hw : (wandPass b.items).1 = b.items.map wandFix := wandPass_items b.items
  have hf : (freqPass (b.items.map wandFix)).1
      = (b.items.map wandFix).map freqFix := freqPass_items _
  by_cases hdc : b.dailyCraftingComplete = true <;>
    simp only [refreshDailyResources, hdc, if_true, if_false,
      Bool.false_eq_true, hw, hf] <;>
    split <;>
    simp_all

theorem refresh_items_proj (b : Actor) (u : Updates) :
    (refreshDailyResources b u).1.items.map projItem
      = (b.items.filter (fun i => !i.temporary)).map projItem := by
  rw [refreshDailyResources_items]
  by_cases he : ((((b.items.map wandFix).map freqFix).filter
      (fun i => i.temporary)).map Item.id).isEmpty = true
  · rw [if_pos he]
    have hnil : ((b.items.map wandFix).map freqFix).filter
        (fun i => i.temporary) = [] := by
      have := List.isEmpty_iff.mp he
      exact List.map_eq_nil_iff.mp this
    have hall : ∀ i ∈ (b.items.map wandFix).map freqFix,
        ¬ (i.temporary = true) := List.filter_eq_nil_iff.mp hnil
    have hself : ((b.items.map wandFix).map freqFix).filter
        (fun i => !i.temporary) = (b.items.map wandFix).map freqFix := by
      apply List.filter_eq_self.mpr
      intro i hi
      simp [hall i hi]
    rw [← hself, proj_filter_chain]
  · rw [if_neg he, proj_filter_chain]

/-! ## Frame lemmas used to settle the Long Rest claims -/

theorem applyUpdates_items (b : Actor) (u : Updates) :
    (applyUpdates b u).items = b.items := by
  obtain ⟨fo, re, h⟩ := applyUpdates_shape b u
  rw [h]

theorem handleRestConditions_items (b : Actor) :
    (handleRestConditions b).1.items = b.items := by
  obtain ⟨f, d, dr, w, h⟩ := handleRestConditions_shape b
  rw [h]

theorem replenish_items (a : Actor) : (replenishHitDice a).1.items = a.items :=
  (replenishHitDice_fields a).2.2.2.2.2.2.2.2.2.2

theorem performLongRest_items_eq (a : Actor) :
    (performLongRest a).actor.items
      = (refreshDailyResources (handleRestConditions (replenishHitDice a).1).1
          (longRestFocusStep (replenishHitDice a).1).1).1.items := by
  rw [performLongRest_actor_eq]
  split
  · rw [applyUpdates_items]
  · rfl

theorem refresh_msgs_split (b : Actor) (u : Updates) :
    ∃ m1 m2 m3, (refreshDailyResources b u).2.2.1
      = m1 ++ m2 ++ m3 ++ [Msg.hpUnchanged, Msg.spellSlotsUnchanged] := by
  simp only [refreshDailyResources]
  by_cases hdc : b.dailyCraftingComplete = true <;>
    simp only [hdc, if_true, if_false, Bool.false_eq_true] <;>
    split <;>
    exact ⟨_, _, _, rfl⟩

/-! ## C4: Long Rest does not touch HP or spell slots -/

/-- C4: for every character, Long Rest leaves HP unchanged, leaves the id and
spell-slot table of every non-temporary item unchanged (deleting only
temporary items), and its consolidated summary contains both the
HP-unchanged and the spell-slots-unchanged notices. -/
theorem C4_longRest_frame (a : Actor) :
    (performLongRest a).actor.hp = a.hp ∧
    (performLongRest a).actor.items.map projItem
      = (a.items.filter (fun i => !i.temporary)).map projItem ∧
    Msg.hpUnchanged ∈ (performLongRest a).messages ∧
    Msg.spellSlotsUnchanged ∈ (performLongRest a).messages := by
  refine ⟨?_, ?_, ?_, ?_⟩
  · obtain ⟨f, d, dr, w, dcc, its, fo, re, hsh⟩ := performLongRest_shape a
    rw [hsh]
    exact (replenishHitDice_fields a).2.1
  · rw [performLongRest_items_eq, refresh_items_proj,
      handleRestConditions_items, replenish_items]
  · obtain ⟨m1, m2, m3, hm⟩ := refresh_msgs_split
      (handleRestConditions (replenishHitDice a).1).1
      (longRestFocusStep (replenishHitDice a).1).1
    rw [performLongRest_messages_eq, hm]
    simp [List.mem_append]
  · obtain ⟨m1, m2, m3, hm⟩ := refresh_msgs_split
      (handleRestConditions (replenishHitDice a).1).1
      (longRestFocusStep (replenishHitDice a).1).1
    rw [performLongRest_messages_eq, hm]
    simp [List.mem_append]

/-! ## C6: the documented Long Rest condition scenario -/

theorem handleRestConditions_scenario (b : Actor) (hf : b.fatigued = true)
    (hd : b.doomed = some 1) (hw : b.wounded = true) (hhp : b.hp < b.hpMax) :
    (handleRestConditions b).1.fatigued = false ∧
    (handleRestConditions b).1.doomed = none ∧
    (handleRestConditions b).1.wounded = true ∧
    Msg.conditionRemoved Cond.fatigued ∈ (handleRestConditions b).2.1 ∧
    Msg.conditionRemoved Cond.doomed ∈ (handleRestConditions b).2.1 ∧
    Msg.woundsNotHealed ∈ (handleRestConditions b).2.1 := by
  rcases b with ⟨lv, hdg, hp0, hpM, cm, cn, fo, re, fa, doo, dra, wo, dcc, its⟩
  simp only at hf hd hw hhp
  subst hf
  subst hd
  subst hw
  have hnp : ¬ (hp0 ≥ hpM) := by omega
  rcases dra with _ | v
  · simp [handleRestConditions, stepFatigued, stepDoomed, stepDrained,
      stepWounded, hnp]
  · by_cases hv : v ≤ 1 <;>
      simp [handleRestConditions, stepFatigued, stepDoomed, stepDrained,
        stepWounded, hnp, hv]

theorem performLongRest_conds (a : Actor) :
    (performLongRest a).actor.fatigued
      = (handleRestConditions (replenishHitDice a).1).1.fatigued ∧
    (performLongRest a).actor.doomed
      = (handleRestConditions (replenishHitDice a).1).1.doomed ∧
    (performLongRest a).actor.wounded
      = (handleRestConditions (replenishHitDice a).1).1.wounded := by
  obtain ⟨its, dcc, h4⟩ := refreshDailyResources_shape
    (handleRestConditions (replenishHitDice a).1).1
    (longRestFocusStep (replenishHitDice a).1).1
  obtain ⟨fo, re, h5⟩ := finalStep_shape
    (refreshDailyResources (handleRestConditions (replenishHitDice a).1).1
      (longRestFocusStep (replenishHitDice a).1).1).1
    (refreshDailyResources (handleRestConditions (replenishHitDice a).1).1
      (longRestFocusStep (replenishHitDice a).1).1).2.1
  rw [performLongRest_actor_eq, h5, h4]
  exact ⟨rfl, rfl, rfl⟩

/-- C6: Long Rest on a character that is fatigued, doomed at severity 1 and
wounded below max HP removes fatigued, removes doomed, leaves wounded with
the wounds-not-healed notice, sets the pool to max, and leaves HP
unchanged. -/
theorem C6_longRest_scenario (a : Actor)
    (hf : a.fatigued = true) (hd : a.doomed = some 1) (hw : a.wounded = true)
    (hhp : a.hp < a.hpMax)
    (h0 : 0 ≤ getCurrentHitDice a)
    (h1 : getCurrentHitDice a ≤ getMaxHitDice a) :
    (performLongRest a).actor.fatigued = false ∧
    (performLongRest a).actor.doomed = none ∧
    (performLongRest a).actor.wounded = true ∧
    Msg.conditionRemoved Cond.fatigued ∈ (performLongRest a).messages ∧
    Msg.conditionRemoved Cond.doomed ∈ (performLongRest a).messages ∧
    Msg.woundsNotHealed ∈ (performLongRest a).messages ∧
    getCurrentHitDice (performLongRest a).actor = getMaxHitDice a ∧
    (performLongRest a).actor.hp = a.hp := by
  have hfld := replenishHitDice_fields a
  have hsc := handleRestConditions_scenario (replenishHitDice a).1
    (by rw [hfld.2.2.2.2.2.1] ; exact hf)
    (by rw [hfld.2.2.2.2.2.2.1] ; exact hd)
    (by rw [hfld.2.2.2.2.2.2.2.2.1] ; exact hw)
    (by rw [hfld.2.1, hfld.2.2.1] ; exact hhp)
  have hcs := performLongRest_conds a
  obtain ⟨f, d, dr, w, dcc, its, fo, re, hsh⟩ := performLongRest_shape a
  refine ⟨?_, ?_, ?_, ?_, ?_, ?_, ?_, ?_⟩
  · rw [hcs.1, hsc.1]
  · rw [hcs.2.1, hsc.2.1]
  · rw [hcs.2.2, hsc.2.2.1]
  · rw [performLongRest_messages_eq]
    have hm := hsc.2.2.2.1
    simp only [List.mem_append]
    tauto
  · rw [performLongRest_messages_eq]
    have hm := hsc.2.2.2.2.1
    simp only [List.mem_append]
    tauto
  · rw [performLongRest_messages_eq]
    have hm := hsc.2.2.2.2.2
    simp only [List.mem_append]
    tauto
  · have hcur : getCurrentHitDice (performLongRest a).actor
        = getCurrentHitDice (replenishHitDice a).1 := by
      rw [hsh]
      rfl
    rw [hcur]
    exact replenishHitDice_current a h0 h1
  · rw [hsh]
    exact hfld.2.1

/-- Witness for C6 on the concrete fixture: fatigued and doomed vanish,
wounded stays with its notice, the pool reaches 4 of 4, HP stays at 10. -/
theorem C6_longRest_scenario_witness :
    (performLongRest c6Actor).actor.fatigued = false ∧
    (performLongRest c6Actor).actor.doomed = none ∧
    (performLongRest c6Actor).actor.wounded = true ∧
    Msg.woundsNotHealed ∈ (performLongRest c6Actor).messages ∧
    getCurrentHitDice (performLongRest c6Actor).actor
      = getMaxHitDice c6Actor ∧
    (performLongRest c6Actor).actor.hp = c6Actor.hp := by
  have h := C6_longRest_scenario c6Actor rfl rfl rfl (by decide)
    (by decide) (by decide)
  exact ⟨h.1, h.2.1, h.2.2.1, h.2.2.2.2.2.1, h.2.2.2.2.2.2.1, h.2.2.2.2.2.2.2⟩

/-! ## C9: write-count analysis of Long Rest -/

theorem replenish_events_nobatch (a : Actor) :
    (replenishHitDice a).2.2.filter Event.isBatched = [] := by
  by_cases h : getCurrentHitDice a < getMaxHitDice a
  · rw [replenishHitDice_below a h]
    rfl
  · rw [replenishHitDice_full a h]
    rfl

theorem stepFatigued_nobatch (a : Actor) :
    (stepFatigued a).2.2.filter Event.isBatched = [] := by
  rcases a with ⟨lv, hdg, hp0, hpM, cm, cn, fo, re, fa, doo, dra, wo, dcc, its⟩
  cases fa <;> rfl

theorem stepDoomed_nobatch (a : Actor) :
    (stepDoomed a).2.2.filter Event.isBatched = [] := by
  rcases a with ⟨lv, hdg, hp0, hpM, cm, cn, fo, re, fa, doo, dra, wo, dcc, its⟩
  rcases doo with _ | v
  · rfl
  · by_cases hv : v ≤ 1
    · simp only [stepDoomed, if_pos hv]
      rfl
    · simp only [stepDoomed, if_neg hv]
      rfl

theorem stepDrained_nobatch (a : Actor) :
    (stepDrained a).2.2.filter Event.isBatched = [] := by
  rcases a with ⟨lv, hdg, hp0, hpM, cm, cn, fo, re, fa, doo, dra, wo, dcc, its⟩
  rcases dra with _ | v
  · rfl
  · by_cases hv : v ≤ 1
    · simp only [stepDrained, if_pos hv]
      rfl
    · simp only [stepDrained, if_neg hv]
      rfl

theorem stepWounded_nobatch (a : Actor) :
    (stepWounded a).2.2.filter Event.isBatched = [] := by
  rcases a with ⟨lv, hdg, hp0, hpM, cm, cn, fo, re, fa, doo, dra, wo, dcc, its⟩
  cases wo
  · rfl
  · by_cases hhp : hp0 ≥ hpM
    · simp only [stepWounded, if_pos hhp]
      rfl
    · simp only [stepWounded, if_neg hhp]
      rfl

theorem handleRestConditions_events_eq (a : Actor) :
    (handleRestConditions a).2.2
      = (stepFatigued a).2.2 ++ (stepDoomed (stepFatigued a).1).2.2
        ++ (stepDrained (stepDoomed (stepFatigued a).1).1).2.2
        ++ (stepWounded (stepDrained (stepDoomed (stepFatigued a).1).1).1).2.2
    := rfl

theorem handleRest_events_nobatch (a : Actor) :
    (handleRestConditions a).2.2.filter Event.isBatched = [] := by
  rw [handleRestConditions_events_eq, List.filter_append, List.filter_append,
    List.filter_append, stepFatigued_nobatch, stepDoomed_nobatch,
    stepDrained_nobatch, stepWounded_nobatch]
  rfl

theorem wandPass_nobatch (l : List Item) :
    (wandPass l).2.filter Event.isBatched = [] := by
  induction l with
  | nil => rfl
  | cons i t ih =>
    by_cases h : isWandWithFrequency i = true <;>
      simp [wandPass, h, ih, Event.isBatched]

theorem freqPass_nobatch (l : List Item) :
    (freqPass l).2.filter Event.isBatched = [] := by
  induction l with
  | nil => rfl
  | cons i t ih =>
    by_cases h : isDailyFrequencyBelowMax i = true <;>
      simp [freqPass, h, ih, Event.isBatched]

theorem refresh_events_nobatch (b : Actor) (u : Updates) :
    (refreshDailyResources b u).2.2.2.filter Event.isBatched = [] := by
  simp only [refreshDailyResources]
  by_cases hdc : b.dailyCraftingComplete = true <;>
    simp only [hdc, if_true, if_false, Bool.false_eq_true] <;>
    split <;>
    simp [List.filter_append, wandPass_nobatch, freqPass_nobatch,
      Event.isBatched]

/-- C9 amended: the accumulated field map is written in at most one batched
actor-update call per Long Rest, and the summary chat message is the final
call of the sequence, hence after the batched write; the other steps issue
their own separate persistence calls. -/
theorem C9_single_batched_update (a : Actor) :
    ((performLongRest a).events.filter Event.isBatched).length ≤ 1 ∧
    (performLongRest a).events.getLast? = some Event.chatMessage := by
  constructor
  · rw [performLongRest_events_eq, List.filter_append, List.filter_append,
      List.filter_append, List.filter_append, replenish_events_nobatch,
      handleRest_events_nobatch, refresh_events_nobatch]
    split <;> decide
  · rw [performLongRest_events_eq]
    exact List.getLast?_concat _

/-- C9 counterexample: on the write-count fixture a single Long Rest performs
two distinct field-update persistence calls (one item update and the batched
actor update), refuting the one-call-per-invocation claim. -/
theorem C9_counterexample :
    ¬ (((performLongRest c9Actor).events.filter Event.isUpdateCall).length
      ≤ 1) := by decide
